import Mathlib

/-!
Verification development for the `local-https-reverse-proxy` core
(`src/main.ts`, multi-route variant): route matching, alias redirects,
the health gate's single-flight promise, the bounded retry engine,
header rewriting at the HTTPS/HTTP boundary, and route-table
construction from configuration.

Strings are modelled as lists of characters (`Str`), matching the
ASCII request paths and header values the program manipulates.
-/

/-- Request paths, header names/values and messages as character lists. -/
abbrev Str := List Char

/-- `p.endsWith('/')` for a one-character suffix: the last character is `'/'`. -/
def endsWithSlash (p : Str) : Bool := p.getLast? = some '/'

/-- JavaScript `String.prototype.replace` with a string pattern: replace the
first (leftmost) occurrence of `pat` by `repl`; if `pat` does not occur,
return the string unchanged. -/
def replaceFirst (pat repl : Str) : Str → Str
  | [] => if pat.isPrefixOf ([] : Str) then repl else []
  | c :: cs =>
      if pat.isPrefixOf (c :: cs) then repl ++ (c :: cs).drop pat.length
      else c :: replaceFirst pat repl cs

/-- A route of the Route Table: name, path prefix, backend port, alias paths
(`routeConfigs` entries in `main.ts`). -/
structure RouteConfig where
  name : Str
  path : Str
  port : Nat
  aliases : List Str
deriving Repr, DecidableEq

/-- The route-matching predicate of the HTTPS request handler
(`routes.find` callback): the path `/` matches everything; otherwise the
URL must equal the path or start with `path + "/"` or `path + "?"`. -/
def routeMatches (url : Str) (r : RouteConfig) : Bool :=
  if r.path = ['/'] then true
  else url = r.path
    || (r.path ++ ['/']).isPrefixOf url
    || (r.path ++ ['?']).isPrefixOf url

/-- `matchedRoute` of `main.ts`: the first route of the (sorted) table
that structurally matches the URL. -/
def matchedRoute (routes : List RouteConfig) (url : Str) : Option RouteConfig :=
  routes.find? (routeMatches url)

/-- The alias-matching test (`matchesAlias` in `main.ts`): the URL equals the
alias or starts with `alias + "/"` or `alias + "?"`. -/
def matchesAlias (url a : Str) : Bool :=
  url = a || (a ++ ['/']).isPrefixOf url || (a ++ ['?']).isPrefixOf url

/-- `mainPath` of the alias redirect: the route's path with a trailing slash
stripped, except when the path is exactly `/`. -/
def mainPathOf (path : Str) : Str :=
  if endsWithSlash path && path ≠ ['/'] then path.dropLast else path

/-- The alias scan of the HTTPS request handler: iterate routes in table
order and, inside each route, aliases in order; return the first alias that
matches the URL together with its route. -/
def findAlias (routes : List RouteConfig) (url : Str) : Option (Str × RouteConfig) :=
  routes.findSome? fun r => (r.aliases.find? (matchesAlias url)).map fun a => (a, r)

/-- The response sent directly by the request handler (not via the proxy). -/
structure HttpResponse where
  status : Nat
  contentTypePlain : Bool
  location : Option Str
  body : Str
deriving Repr, DecidableEq

/-- Outcome of the HTTPS request handler: either a direct response or an
invocation of `matchedRoute.proxy.web` (identified by the route's name). -/
inductive HttpAction where
  | respond (r : HttpResponse)
  | proxyWeb (routeName : Str)
deriving Repr, DecidableEq

/-- Outcome of the `upgrade` handler: either `socket.end` with a raw status
line, or an invocation of `matchedRoute.proxy.ws`. -/
inductive WsAction where
  | close (line : Str)
  | proxyWs (routeName : Str)
deriving Repr, DecidableEq

/-- Body of the 301 alias redirect: `Moved Permanently: alias -> path`. -/
def movedBody (a path : Str) : Str :=
  ("Moved Permanently: ".toList) ++ a ++ (" -> ".toList) ++ path

/-- Body of the 404 response. -/
def notFoundBody : Str := "Not Found: No matching route".toList

/-- Body of the 502 response. -/
def badGatewayBody : Str := "Bad Gateway: Target server not available".toList

/-- Raw status line written by the upgrade handler for status 404/502/500. -/
def statusLine (status : Nat) : Str :=
  if status = 404 then "HTTP/1.1 404 Not Found\r\n\r\n".toList
  else if status = 502 then "HTTP/1.1 502 Bad Gateway\r\n\r\n".toList
  else "HTTP/1.1 500 Internal Server Error\r\n\r\n".toList

/-- The HTTPS request handler of `main.ts`, with the per-route health-check
outcome supplied as an oracle `health` keyed by route name: first the alias
scan (301 redirect), then route matching (404 when nothing matches), then
the health gate (502 when unavailable), and finally `proxy.web`. -/
def handleRequest (routes : List RouteConfig) (health : Str → Bool) (url : Str) :
    HttpAction :=
  match findAlias routes url with
  | some (a, r) =>
      .respond ⟨301, true, some (replaceFirst a (mainPathOf r.path) url),
                movedBody a r.path⟩
  | none =>
      match matchedRoute routes url with
      | none => .respond ⟨404, true, none, notFoundBody⟩
      | some r =>
          if health r.name then .proxyWeb r.name
          else .respond ⟨502, true, none, badGatewayBody⟩

/-- The WebSocket `upgrade` handler of `main.ts`: route matching (404 status
line when nothing matches), then the health gate (502 status line), then
`proxy.ws`. The upgrade handler performs no alias scan. -/
def handleUpgrade (routes : List RouteConfig) (health : Str → Bool) (url : Str) :
    WsAction :=
  match matchedRoute routes url with
  | none => .close (statusLine 404)
  | some r =>
      if health r.name then .proxyWs r.name
      else .close (statusLine 502)

/-- The direct-response stages shared by both handlers, viewed on the socket
side: a direct response of status `s` corresponds to `socket.end` with the
raw status line for `s`; a `proxy.web` call corresponds to `proxy.ws`. -/
def wsView : HttpAction → WsAction
  | .respond r => .close (statusLine r.status)
  | .proxyWeb n => .proxyWs n

/-- Erase every route's aliases (used to state that the upgrade handler is
insensitive to aliases). -/
def stripAliases (routes : List RouteConfig) : List RouteConfig :=
  routes.map fun r => { r with aliases := [] }

/-! ### Health gate: the single-flight promise of `getOrCreateHealthCheck` -/

/-- State of one route's health gate: `active` is the closure variable
`activeHealthCheck` (the pending probe's identity, or `none`); `nextId`
numbers probe sequences in creation order; `outstanding` records the probe
sequences started and not yet resolved. -/
structure GateState where
  active : Option Nat
  nextId : Nat
  outstanding : List Nat
deriving Repr, DecidableEq

/-- `getOrCreateHealthCheck` of `main.ts`: if a probe promise is pending,
return it and leave the state unchanged; otherwise start a new probe
sequence, store its promise, and return it. -/
def getOrCreateHealthCheck (s : GateState) : Nat × GateState :=
  match s.active with
  | some p => (p, s)
  | none => (s.nextId, ⟨some s.nextId, s.nextId + 1, s.nextId :: s.outstanding⟩)

/-- Events at the gate: a caller invokes `getOrCreateHealthCheck`, or the
pending probe's promise settles (its `.finally` clears the stored promise
and the sequence is no longer outstanding). -/
inductive GateEv where
  | call
  | settle
deriving Repr, DecidableEq

/-- One step of the gate's event-loop semantics. A `settle` with no pending
probe is a no-op (the `.finally` handler only ever fires for the stored
promise). -/
def gateStep (s : GateState) : GateEv → GateState
  | .call => (getOrCreateHealthCheck s).2
  | .settle =>
      match s.active with
      | none => s
      | some p => { s with active := none, outstanding := s.outstanding.erase p }

/-- Initial gate state: `activeHealthCheck = null`, no probe ever started. -/
def gateInit : GateState := ⟨none, 0, []⟩

/-- Run a sequence of gate events from the initial state. -/
def runGate (es : List GateEv) : GateState := es.foldl gateStep gateInit

/-- Gate invariant: the outstanding probe sequences are exactly the stored
pending promise (none, or the single active one), and every issued probe id
is below `nextId`. -/
def gateInv (s : GateState) : Prop :=
  (s.active = none → s.outstanding = []) ∧
  (∀ p, s.active = some p → s.outstanding = [p] ∧ p < s.nextId)

/-! ### Retry engine: `checkTargetAvailable` -/

/-- One TCP connect attempt as the environment presents it: whether the
connect succeeded, and how many milliseconds the attempt took (bounded in
reality by the 100 ms socket timeout, but arbitrary here). -/
structure Attempt where
  ok : Bool
  dur : Nat
deriving Repr, DecidableEq

/-- `checkTargetAvailable` of `main.ts`, as a function of the attempt
outcomes the environment supplies and the elapsed time `t` since
`startTime`. Loop guard: while `elapsed < maxRetryMs`, make an attempt; on
success resolve `true`; on failure, if the new elapsed time has reached
`maxRetryMs`, resolve `false`, else sleep `retryIntervalMs` and retry.
Returns the result, the elapsed time at resolution, and the unconsumed
attempts; `none` when the environment supplied too few attempts. -/
def checkTargetAvailable (maxRetryMs retryIntervalMs : Nat) :
    List Attempt → Nat → Option (Bool × Nat × List Attempt)
  | [], t => if maxRetryMs ≤ t then some (false, t, []) else none
  | a :: rest, t =>
      if maxRetryMs ≤ t then some (false, t, a :: rest)
      else if a.ok then some (true, t + a.dur, rest)
      else if maxRetryMs ≤ t + a.dur then some (false, t + a.dur, rest)
      else checkTargetAvailable maxRetryMs retryIntervalMs rest
             (t + a.dur + retryIntervalMs)

/-! ### Configuration lookup (`get`) and falsy values -/

/-- JavaScript configuration values, with their truthiness. -/
inductive JVal where
  | num (n : Int)
  | str (s : Str)
  | boolean (b : Bool)
  | null
  | undefinedVal
deriving Repr, DecidableEq

/-- JavaScript truthiness of a configuration value: `0`, `""`, `false`,
`null` and `undefined` are falsy. -/
def truthy : JVal → Bool
  | .num n => n ≠ 0
  | .str s => s ≠ []
  | .boolean b => b
  | .null => false
  | .undefinedVal => false

/-- Property access `o[k]` on a configuration object: `undefined` when the
key is absent. -/
def lookupJ (o : List (Str × JVal)) (k : Str) : JVal :=
  match o.find? (fun p => p.1 = k) with
  | some p => p.2
  | none => .undefinedVal

/-- The `get` helper of `main.ts` (its value computation):
`proxyConfig[key] ? proxyConfig[key] : checkDefault && defaults && defaults[key] ? defaults[key] : null`. -/
def getConfigValue (proxyConfig : List (Str × JVal)) (defaults : Option (List (Str × JVal)))
    (key : Str) (checkDefault : Bool) : JVal :=
  if truthy (lookupJ proxyConfig key) then lookupJ proxyConfig key
  else if checkDefault then
    match defaults with
    | some ds => if truthy (lookupJ ds key) then lookupJ ds key else .null
    | none => .null
  else .null

/-- The `get` helper including its error path: with `allowUndefined = false`
a `null` result throws a configuration error. -/
def getConfigValueE (proxyConfig : List (Str × JVal)) (defaults : Option (List (Str × JVal)))
    (key : Str) (checkDefault allowUndefined : Bool) : Except Str JVal :=
  let v := getConfigValue proxyConfig defaults key checkDefault
  if !allowUndefined && v = JVal.null then
    .error (("No value provided for key ".toList) ++ key)
  else .ok v

/-- JavaScript `??`: take the right operand exactly when the left is
`null` or `undefined`. -/
def coalesce (v d : JVal) : JVal :=
  match v with
  | .null => d
  | .undefinedVal => d
  | _ => v

/-- `maxRetryMs` of a proxy entry: `get('maxRetryMs', true, true) ?? 1000`. -/
def maxRetryMsOf (pc : List (Str × JVal)) (ds : Option (List (Str × JVal))) : JVal :=
  coalesce (getConfigValue pc ds ("maxRetryMs".toList) true) (.num 1000)

/-- `retryIntervalMs` of a proxy entry: `get('retryIntervalMs', true, true) ?? 50`. -/
def retryIntervalMsOf (pc : List (Str × JVal)) (ds : Option (List (Str × JVal))) : JVal :=
  coalesce (getConfigValue pc ds ("retryIntervalMs".toList) true) (.num 50)

/-- `source` of a proxy entry: `get('source', false, true) ?? routeConfigs[0].port + 1000`. -/
def sourceOf (pc : List (Str × JVal)) (ds : Option (List (Str × JVal)))
    (firstRoutePort : Int) : JVal :=
  coalesce (getConfigValue pc ds ("source".toList) false) (.num (firstRoutePort + 1000))

/-! ### Route Table construction -/

/-- One entry of the `targets` map of a proxy configuration. -/
structure TargetEntry where
  name : Str
  path : Str
  port : Nat
  aliases : List Str
deriving Repr, DecidableEq

/-- The alias validation of route construction: an alias is rejected when
it ends with a slash and is not exactly `/`. -/
def badAlias (a : Str) : Bool := endsWithSlash a && a ≠ ['/']

/-- The trailing-slash configuration error message. -/
def trailingSlashErr (a tname : Str) : Str :=
  ("Alias ".toList) ++ a ++ (" in target ".toList) ++ tname ++
    (" has a trailing slash".toList)

/-- The no-targets configuration error message. -/
def noTargetErr : Str := "No target or targets provided".toList

/-- Stable insertion (descending path length): a route is placed before the
first route whose path is no longer, so that routes of equal path length
keep their original order, as JavaScript's stable `Array.prototype.sort`
with comparator `(a, b) => b.path.length - a.path.length` does. -/
def insertByPathLen (r : RouteConfig) : List RouteConfig → List RouteConfig
  | [] => [r]
  | x :: xs =>
      if x.path.length ≤ r.path.length then r :: x :: xs
      else x :: insertByPathLen r xs

/-- Stable sort of the route table by descending path length
(`routeConfigs.sort((a, b) => b.path.length - a.path.length)`). -/
def sortRoutes : List RouteConfig → List RouteConfig
  | [] => []
  | r :: rs => insertByPathLen r (sortRoutes rs)

/-- The named-targets loop of route construction: turn each `targets` entry
into a route, throwing at the first alias with a trailing slash. -/
def collectNamedRoutes : List TargetEntry → Except Str (List RouteConfig)
  | [] => .ok []
  | t :: ts =>
      match t.aliases.find? badAlias with
      | some a => .error (trailingSlashErr a t.name)
      | none =>
          match collectNamedRoutes ts with
          | .error e => .error e
          | .ok rest => .ok (⟨t.name, t.path, t.port, t.aliases⟩ :: rest)

/-- The fallback route contributed by a single `target` configuration:
`{ name: 'default', path: '/', port: singleTarget }`, or nothing when no
single target is configured. -/
def fallbackRoutes : Option Nat → List RouteConfig
  | some p => [⟨"default".toList, ['/'], p, []⟩]
  | none => []

/-- Route Table construction of `main.ts` (lines 152-185): validate each
named target's aliases (throwing on the first alias with a trailing slash),
collect the named routes, append the single-target fallback route `/` when
a single target is configured, reject an empty table, and sort by
descending path length. -/
def buildRouteConfigs (multiTargets : List TargetEntry) (singleTarget : Option Nat) :
    Except Str (List RouteConfig) :=
  match collectNamedRoutes multiTargets with
  | .error e => .error e
  | .ok named =>
      if (named ++ fallbackRoutes singleTarget).isEmpty then .error noTargetErr
      else .ok (sortRoutes (named ++ fallbackRoutes singleTarget))

/-! ### Header rewriting at the HTTPS/HTTP boundary -/

/-- The scheme literal `https:`. -/
def httpsScheme : Str := "https:".toList

/-- The scheme literal `http:`. -/
def httpScheme : Str := "http:".toList

/-- `value.replace(/^https:/, 'http:')`: rewrite a leading `https:` to
`http:`, otherwise leave the value unchanged. -/
def rewriteToHttp (v : Str) : Str :=
  if httpsScheme.isPrefixOf v then httpScheme ++ v.drop httpsScheme.length else v

/-- `value.replace(/^http:/, 'https:')`: rewrite a leading `http:` to
`https:`, otherwise leave the value unchanged. -/
def rewriteToHttps (v : Str) : Str :=
  if httpScheme.isPrefixOf v then httpsScheme ++ v.drop httpScheme.length else v

/-- The `proxyReq` hook: rewrite the `origin` and `referer` request headers
(when present) from `https:` to `http:`; all other headers pass through. -/
def transformRequestHeaders (hs : List (Str × Str)) : List (Str × Str) :=
  hs.map fun p =>
    if p.1 = ("origin".toList) || p.1 = ("referer".toList)
    then (p.1, rewriteToHttp p.2) else p

/-- The `proxyRes` hook: rewrite the `location` and
`access-control-allow-origin` response headers (when present) from `http:`
to `https:`; all other headers pass through. -/
def transformResponseHeaders (hs : List (Str × Str)) : List (Str × Str) :=
  hs.map fun p =>
    if p.1 = ("location".toList) || p.1 = ("access-control-allow-origin".toList)
    then (p.1, rewriteToHttps p.2) else p

/-! ### Concrete route tables used by the examples -/

/-- The `/api` route of the spec's route-matching example. -/
def apiRoute : RouteConfig := ⟨"api".toList, "/api".toList, 3000, []⟩

/-- The catch-all fallback route `/`. -/
def fallbackRoute : RouteConfig := ⟨"default".toList, "/".toList, 5173, []⟩

/-- The `/admin` route with alias `/adm` of the spec's alias example. -/
def adminRoute : RouteConfig := ⟨"admin".toList, "/admin".toList, 8080, ["/adm".toList]⟩

/-! ### Helper lemmas -/

theorem replaceFirst_of_isPrefixOf (pat repl s : Str) (h : pat.isPrefixOf s = true) :
    replaceFirst pat repl s = repl ++ s.drop pat.length := by
  cases s with
  | nil => simp [replaceFirst, h]
  | cons c cs => simp [replaceFirst, h]

theorem find_first_maximal {α : Type} (key : α → Nat) (p : α → Bool) :
    ∀ l : List α, l.Pairwise (fun a b => key b ≤ key a) →
      ∀ x, l.find? p = some x → ∀ y ∈ l, p y = true → key y ≤ key x := by
  intro l
  induction l with
  | nil => intro _ x hx; simp at hx
  | cons a l ih =>
      intro hp x hx y hy hpy
      rw [List.pairwise_cons] at hp
      by_cases hpa : p a = true
      · rw [List.find?_cons_of_pos _ hpa] at hx
        cases hx
        rcases List.mem_cons.mp hy with rfl | hy'
        · exact le_refl _
        · exact hp.1 y hy'
      · rw [List.find?_cons_of_neg _ hpa] at hx
        rcases List.mem_cons.mp hy with rfl | hy'
        · exact absurd hpy hpa
        · exact ih hp.2 x hx y hy' hpy

theorem routeMatches_eraseAliases (url : Str) (r : RouteConfig) :
    routeMatches url { r with aliases := [] } = routeMatches url r := rfl

theorem matchedRoute_stripAliases (routes : List RouteConfig) (url : Str) :
    matchedRoute (stripAliases routes) url =
      (matchedRoute routes url).map fun r => { r with aliases := [] } := by
  induction routes with
  | nil => rfl
  | cons r rs ih =>
      show List.find? _ ({ r with aliases := [] } :: stripAliases rs) = _
      by_cases h : routeMatches url r = true
      · rw [List.find?_cons_of_pos _ (by rw [routeMatches_eraseAliases]; exact h)]
        rw [show matchedRoute (r :: rs) url = some r from List.find?_cons_of_pos _ h]
        rfl
      · rw [List.find?_cons_of_neg _ (by rw [routeMatches_eraseAliases]; exact h)]
        rw [show matchedRoute (r :: rs) url = matchedRoute rs url from
          List.find?_cons_of_neg _ h]
        exact ih

theorem findAlias_some :
    ∀ (routes : List RouteConfig) (url : Str) (p : Str × RouteConfig),
      findAlias routes url = some p →
      matchesAlias url p.1 = true ∧ p.2 ∈ routes ∧ p.1 ∈ p.2.aliases := by
  intro routes
  induction routes with
  | nil => intro url p h; simp [findAlias] at h
  | cons r rs ih =>
      intro url p h
      unfold findAlias at h
      rw [List.findSome?_cons] at h
      cases hf : r.aliases.find? (matchesAlias url) with
      | some a =>
          rw [hf] at h
          simp only [Option.map_some'] at h
          cases h
          exact ⟨List.find?_some hf, List.mem_cons_self _ _, List.mem_of_find?_eq_some hf⟩
      | none =>
          rw [hf] at h
          simp only [Option.map_none'] at h
          obtain ⟨h1, h2, h3⟩ := ih url p h
          exact ⟨h1, List.mem_cons_of_mem _ h2, h3⟩

theorem gateInv_init : gateInv gateInit := by
  constructor
  · intro _; rfl
  · intro p hp; simp [gateInit] at hp

theorem gateInv_step (s : GateState) (e : GateEv) (h : gateInv s) :
    gateInv (gateStep s e) := by
  obtain ⟨h1, h2⟩ := h
  cases e with
  | call =>
      cases ha : s.active with
      | some p =>
          have hs : gateStep s .call = s := by
            simp [gateStep, getOrCreateHealthCheck, ha]
          rw [hs]; exact ⟨h1, h2⟩
      | none =>
          have hout := h1 ha
          have hs : gateStep s .call =
              ⟨some s.nextId, s.nextId + 1, s.nextId :: s.outstanding⟩ := by
            simp [gateStep, getOrCreateHealthCheck, ha]
          rw [hs]
          constructor
          · intro hc; simp at hc
          · intro p hp
            simp only [Option.some.injEq] at hp
            subst hp
            exact ⟨by rw [hout], by show s.nextId < s.nextId + 1; omega⟩
  | settle =>
      cases ha : s.active with
      | none =>
          have hs : gateStep s .settle = s := by simp [gateStep, ha]
          rw [hs]; exact ⟨h1, h2⟩
      | some p =>
          obtain ⟨hout, _⟩ := h2 p ha
          have hs : gateStep s .settle =
              { s with active := none, outstanding := s.outstanding.erase p } := by
            simp [gateStep, ha]
          rw [hs]
          constructor
          · intro _; simp [hout]
          · intro q hq; simp at hq

theorem gateInv_foldl :
    ∀ (es : List GateEv) (s : GateState), gateInv s → gateInv (es.foldl gateStep s)
  | [], _, h => h
  | e :: es, s, h => gateInv_foldl es _ (gateInv_step s e h)

theorem gateInv_runGate (es : List GateEv) : gateInv (runGate es) :=
  gateInv_foldl es gateInit gateInv_init

/-- C1: single-flight health probe per route. A caller that arrives while a
probe promise is pending receives that same pending promise and the gate
state is unchanged (no second probe sequence starts); in every reachable
gate state at most one probe sequence is outstanding; and once the pending
probe settles, the stored promise is cleared, so a call arriving after
resolution creates a fresh probe, distinct from the resolved one and newly
stored as the pending promise. -/
theorem c1_single_flight_health_gate :
    (∀ (s : GateState) (p : Nat), s.active = some p →
        getOrCreateHealthCheck s = (p, s)) ∧
    (∀ es : List GateEv, (runGate es).outstanding.length ≤ 1) ∧
    (∀ (es : List GateEv) (p : Nat), (runGate es).active = some p →
        (gateStep (runGate es) .settle).active = none ∧
        (getOrCreateHealthCheck (gateStep (runGate es) .settle)).1 ≠ p ∧
        (gateStep (gateStep (runGate es) .settle) .call).active =
          some (getOrCreateHealthCheck (gateStep (runGate es) .settle)).1) := by
  refine ⟨?_, ?_, ?_⟩
  · intro s p hp
    unfold getOrCreateHealthCheck
    rw [hp]
  · intro es
    obtain ⟨h1, h2⟩ := gateInv_runGate es
    cases ha : (runGate es).active with
    | none => rw [h1 ha]; simp
    | some p => rw [(h2 p ha).1]; simp
  · intro es p hp
    obtain ⟨h1, h2⟩ := gateInv_runGate es
    obtain ⟨hout, hlt⟩ := h2 p hp
    have ha : (gateStep (runGate es) .settle).active = none := by
      simp [gateStep, hp]
    have hn : (gateStep (runGate es) .settle).nextId = (runGate es).nextId := by
      simp [gateStep, hp]
    have hval : (getOrCreateHealthCheck (gateStep (runGate es) .settle)).1 =
        (gateStep (runGate es) .settle).nextId := by
      unfold getOrCreateHealthCheck
      rw [ha]
    refine ⟨ha, ?_, ?_⟩
    · rw [hval, hn]
      omega
    · show ((getOrCreateHealthCheck (gateStep (runGate es) .settle)).2).active = _
      unfold getOrCreateHealthCheck
      rw [ha]

theorem c1_witness :
    getOrCreateHealthCheck ⟨some 5, 6, [5]⟩ = (5, ⟨some 5, 6, [5]⟩) ∧
    (runGate [GateEv.call, GateEv.call]).outstanding.length ≤ 1 ∧
    ((gateStep (runGate [GateEv.call]) .settle).active = none ∧
     (getOrCreateHealthCheck (gateStep (runGate [GateEv.call]) .settle)).1 ≠ 0 ∧
     (gateStep (gateStep (runGate [GateEv.call]) .settle) .call).active =
       some (getOrCreateHealthCheck (gateStep (runGate [GateEv.call]) .settle)).1) :=
  ⟨c1_single_flight_health_gate.1 ⟨some 5, 6, [5]⟩ 5 rfl,
   c1_single_flight_health_gate.2.1 [GateEv.call, GateEv.call],
   c1_single_flight_health_gate.2.2 [GateEv.call] 0 (by decide)⟩

/-- C2: route matching, most-specific-wins. A route matches a URL exactly
when the URL equals the route's path, or starts with `path + "/"` or
`path + "?"`, except that the path `/` matches everything; on a table
sorted by descending path length, the selected route is a match whose path
length is maximal among all matching routes; and concretely, with routes
`/api` and `/`, the path `/apiextra` does not match `/api` and is served by
the `/` route. -/
theorem c2_route_matching_most_specific (routes : List RouteConfig)
    (hsorted : routes.Pairwise fun a b => b.path.length ≤ a.path.length) :
    (∀ (url : Str) (r : RouteConfig),
        routeMatches url r = true ↔
          (r.path = ['/'] ∨ url = r.path ∨ (r.path ++ ['/']).isPrefixOf url = true ∨
            (r.path ++ ['?']).isPrefixOf url = true)) ∧
    (∀ (url : Str) (x : RouteConfig), matchedRoute routes url = some x →
        routeMatches url x = true ∧
        ∀ y ∈ routes, routeMatches url y = true → y.path.length ≤ x.path.length) ∧
    (routeMatches ("/apiextra".toList) apiRoute = false ∧
      matchedRoute [apiRoute, fallbackRoute] ("/apiextra".toList) = some fallbackRoute) := by
  refine ⟨?_, ?_, by decide⟩
  · intro url r
    unfold routeMatches
    by_cases h : r.path = ['/']
    · simp [h]
    · simp [h, or_assoc]
  · intro url x hx
    exact ⟨List.find?_some hx,
      find_first_maximal (fun r => r.path.length) _ routes hsorted x hx⟩

theorem c2_witness :
    routeMatches ("/apiextra".toList) apiRoute = false ∧
    matchedRoute [apiRoute, fallbackRoute] ("/apiextra".toList) = some fallbackRoute :=
  (c2_route_matching_most_specific [apiRoute, fallbackRoute] (by decide)).2.2

/-- C4: alias redirect content. When the alias scan finds a matching alias,
the handler responds 301 (before route matching is ever consulted, for
every health oracle) with a Location equal to the request path with the
alias replaced by the matched route's main path; the main path is the
route's path with a trailing slash stripped unless the path is exactly
`/`; the found alias really matches the URL, belongs to a route of the
table, and when the alias is a prefix of the URL the replacement is the
main path followed by the remainder of the URL; concretely, alias `/adm`
on route `/admin` sends `/adm/users?x=1` to `/admin/users?x=1`. -/
theorem c4_alias_redirect_content :
    (∀ (routes : List RouteConfig) (health : Str → Bool) (url a : Str)
        (r : RouteConfig), findAlias routes url = some (a, r) →
        handleRequest routes health url =
          .respond ⟨301, true, some (replaceFirst a (mainPathOf r.path) url),
                    movedBody a r.path⟩) ∧
    (∀ (routes : List RouteConfig) (url : Str) (p : Str × RouteConfig),
        findAlias routes url = some p →
        matchesAlias url p.1 = true ∧ p.2 ∈ routes ∧ p.1 ∈ p.2.aliases) ∧
    (∀ a m url : Str, a.isPrefixOf url = true →
        replaceFirst a m url = m ++ url.drop a.length) ∧
    (∀ health : Str → Bool,
        handleRequest [adminRoute, fallbackRoute] health ("/adm/users?x=1".toList) =
          .respond ⟨301, true, some ("/admin/users?x=1".toList),
                    movedBody ("/adm".toList) ("/admin".toList)⟩) := by
  refine ⟨?_, findAlias_some, replaceFirst_of_isPrefixOf, fun _ => rfl⟩
  intro routes health url a r h
  unfold handleRequest
  rw [h]

theorem c4_witness :
    handleRequest [adminRoute, fallbackRoute] (fun _ => false) ("/adm/users?x=1".toList) =
      .respond ⟨301, true,
        some (replaceFirst ("/adm".toList) (mainPathOf adminRoute.path)
                ("/adm/users?x=1".toList)),
        movedBody ("/adm".toList) adminRoute.path⟩ :=
  c4_alias_redirect_content.1 [adminRoute, fallbackRoute] (fun _ => false)
    ("/adm/users?x=1".toList) ("/adm".toList) adminRoute rfl

/-- C5: header rewriting at the HTTPS/HTTP boundary. On the request side,
an `origin` or `referer` header is forwarded with a leading `https:`
rewritten to `http:`; on the response side, a `location` or
`access-control-allow-origin` header is delivered with a leading `http:`
rewritten to `https:`; headers under any other name, and these four when
the scheme prefix is absent, pass through unchanged; concretely,
`origin: https://localhost:5174` becomes `http://localhost:5174` and
`location: http://localhost:3000/x` becomes `https://localhost:3000/x`. -/
theorem c5_header_rewriting :
    (∀ (hs : List (Str × Str)) (k v : Str), (k, v) ∈ hs →
        (k = ("origin".toList) ∨ k = ("referer".toList)) →
        (k, rewriteToHttp v) ∈ transformRequestHeaders hs) ∧
    (∀ (hs : List (Str × Str)) (k v : Str), (k, v) ∈ hs →
        k ≠ ("origin".toList) → k ≠ ("referer".toList) →
        (k, v) ∈ transformRequestHeaders hs) ∧
    (∀ v : Str, httpsScheme.isPrefixOf v = true →
        rewriteToHttp v = httpScheme ++ v.drop httpsScheme.length) ∧
    (∀ v : Str, httpsScheme.isPrefixOf v = false → rewriteToHttp v = v) ∧
    (∀ (hs : List (Str × Str)) (k v : Str), (k, v) ∈ hs →
        (k = ("location".toList) ∨ k = ("access-control-allow-origin".toList)) →
        (k, rewriteToHttps v) ∈ transformResponseHeaders hs) ∧
    (∀ (hs : List (Str × Str)) (k v : Str), (k, v) ∈ hs →
        k ≠ ("location".toList) → k ≠ ("access-control-allow-origin".toList) →
        (k, v) ∈ transformResponseHeaders hs) ∧
    (∀ v : Str, httpScheme.isPrefixOf v = true →
        rewriteToHttps v = httpsScheme ++ v.drop httpScheme.length) ∧
    (∀ v : Str, httpScheme.isPrefixOf v = false → rewriteToHttps v = v) ∧
    (rewriteToHttp ("https://localhost:5174".toList) = ("http://localhost:5174".toList) ∧
      rewriteToHttps ("http://localhost:3000/x".toList) =
        ("https://localhost:3000/x".toList)) := by
  refine ⟨?_, ?_, ?_, ?_, ?_, ?_, ?_, ?_, by decide⟩
  · intro hs k v hkv hk
    unfold transformRequestHeaders
    have he : (fun p : Str × Str =>
        if p.1 = ("origin".toList) || p.1 = ("referer".toList)
        then (p.1, rewriteToHttp p.2) else p) (k, v) = (k, rewriteToHttp v) := by
      rcases hk with rfl | rfl <;> simp
    exact he ▸ List.mem_map_of_mem _ hkv
  · intro hs k v hkv hk1 hk2
    unfold transformRequestHeaders
    have he : (fun p : Str × Str =>
        if p.1 = ("origin".toList) || p.1 = ("referer".toList)
        then (p.1, rewriteToHttp p.2) else p) (k, v) = (k, v) := by
      simp only [decide_eq_true_eq, Bool.or_eq_true, ite_eq_right_iff]
      intro h
      rcases h with rfl | rfl
      · exact absurd rfl hk1
      · exact absurd rfl hk2
    exact he ▸ List.mem_map_of_mem _ hkv
  · intro v h; unfold rewriteToHttp; rw [if_pos h]
  · intro v h; unfold rewriteToHttp; rw [if_neg (by simp [h])]
  · intro hs k v hkv hk
    unfold transformResponseHeaders
    have he : (fun p : Str × Str =>
        if p.1 = ("location".toList) || p.1 = ("access-control-allow-origin".toList)
        then (p.1, rewriteToHttps p.2) else p) (k, v) = (k, rewriteToHttps v) := by
      rcases hk with rfl | rfl <;> simp
    exact he ▸ List.mem_map_of_mem _ hkv
  · intro hs k v hkv hk1 hk2
    unfold transformResponseHeaders
    have he : (fun p : Str × Str =>
        if p.1 = ("location".toList) || p.1 = ("access-control-allow-origin".toList)
        then (p.1, rewriteToHttps p.2) else p) (k, v) = (k, v) := by
      simp only [decide_eq_true_eq, Bool.or_eq_true, ite_eq_right_iff]
      intro h
      rcases h with rfl | rfl
      · exact absurd rfl hk1
      · exact absurd rfl hk2
    exact he ▸ List.mem_map_of_mem _ hkv
  · intro v h; unfold rewriteToHttps; rw [if_pos h]
  · intro v h; unfold rewriteToHttps; rw [if_neg (by simp [h])]

theorem c5_witness :
    (("origin".toList, rewriteToHttp ("https://localhost:5174".toList)) ∈
      transformRequestHeaders
        [("origin".toList, "https://localhost:5174".toList),
         ("host".toList, "localhost:5174".toList)]) ∧
    (("host".toList, "localhost:5174".toList) ∈
      transformRequestHeaders
        [("origin".toList, "https://localhost:5174".toList),
         ("host".toList, "localhost:5174".toList)]) ∧
    (("location".toList, rewriteToHttps ("http://localhost:3000/x".toList)) ∈
      transformResponseHeaders [("location".toList, "http://localhost:3000/x".toList)]) :=
  ⟨c5_header_rewriting.1 _ _ _ (by simp) (Or.inl rfl),
   c5_header_rewriting.2.1 _ _ _ (by simp) (by decide) (by decide),
   c5_header_rewriting.2.2.2.2.1 _ _ _ (by simp) (Or.inl rfl)⟩

/-- C6: an unavailable backend short-circuits forwarding. For a request
that reaches route matching (no alias matched) and whose matched route's
health check resolves false, the handler responds 502 with the plain-text
bad-gateway body and never invokes `proxy.web`; for a WebSocket upgrade
whose matched route's health check resolves false, the handler closes the
socket with the raw line `HTTP/1.1 502 Bad Gateway\r\n\r\n` and never
invokes `proxy.ws`. -/
theorem c6_unavailable_short_circuit :
    (∀ (routes : List RouteConfig) (health : Str → Bool) (url : Str)
        (r : RouteConfig), findAlias routes url = none →
        matchedRoute routes url = some r → health r.name = false →
        handleRequest routes health url = .respond ⟨502, true, none, badGatewayBody⟩ ∧
        ∀ n, handleRequest routes health url ≠ .proxyWeb n) ∧
    (∀ (routes : List RouteConfig) (health : Str → Bool) (url : Str)
        (r : RouteConfig), matchedRoute routes url = some r → health r.name = false →
        handleUpgrade routes health url =
          .close ("HTTP/1.1 502 Bad Gateway\r\n\r\n".toList) ∧
        ∀ n, handleUpgrade routes health url ≠ .proxyWs n) := by
  constructor
  · intro routes health url r ha hm hh
    have he : handleRequest routes health url = .respond ⟨502, true, none, badGatewayBody⟩ := by
      simp [handleRequest, ha, hm, hh]
    exact ⟨he, fun n => by rw [he]; simp⟩
  · intro routes health url r hm hh
    have he : handleUpgrade routes health url =
        .close ("HTTP/1.1 502 Bad Gateway\r\n\r\n".toList) := by
      simp [handleUpgrade, hm, hh, statusLine]
    exact ⟨he, fun n => by rw [he]; simp⟩

theorem c6_witness :
    (handleRequest [apiRoute] (fun _ => false) ("/api/users".toList) =
        .respond ⟨502, true, none, badGatewayBody⟩ ∧
      ∀ n, handleRequest [apiRoute] (fun _ => false) ("/api/users".toList) ≠
        .proxyWeb n) ∧
    (handleUpgrade [apiRoute] (fun _ => false) ("/api/users".toList) =
        .close ("HTTP/1.1 502 Bad Gateway\r\n\r\n".toList) ∧
      ∀ n, handleUpgrade [apiRoute] (fun _ => false) ("/api/users".toList) ≠
        .proxyWs n) :=
  ⟨c6_unavailable_short_circuit.1 [apiRoute] (fun _ => false) ("/api/users".toList)
      apiRoute rfl rfl rfl,
   c6_unavailable_short_circuit.2 [apiRoute] (fun _ => false) ("/api/users".toList)
      apiRoute rfl rfl⟩

/-- C7 counterexample: a WebSocket upgrade whose URL matches the configured
alias `/adm` of route `/admin` is not answered with any alias outcome: the
upgrade handler route-matches the URL (it falls through to the `/` route
and is proxied), while the HTTP handler for the same URL issues the alias
redirect. -/
theorem c7_counterexample :
    handleRequest [adminRoute, fallbackRoute] (fun _ => true) ("/adm/users".toList) =
      .respond ⟨301, true, some ("/admin/users".toList),
                movedBody ("/adm".toList) ("/admin".toList)⟩ ∧
    handleUpgrade [adminRoute, fallbackRoute] (fun _ => true) ("/adm/users".toList) =
      .proxyWs ("default".toList) := by
  constructor
  · rfl
  · rfl

/-- C7 (amended): WebSocket upgrades traverse the same state machine as
HTTP requests except that the alias stage is absent from the upgrade path.
For every upgrade whose URL matches no alias, the upgrade outcome is the
HTTP outcome with direct responses replaced by raw status-line socket
closes; and the upgrade handler is entirely insensitive to aliases: erasing
every alias from the table leaves every upgrade outcome unchanged. -/
theorem c7_upgrade_state_machine :
    (∀ (routes : List RouteConfig) (health : Str → Bool) (url : Str),
        findAlias routes url = none →
        wsView (handleRequest routes health url) = handleUpgrade routes health url) ∧
    (∀ (routes : List RouteConfig) (health : Str → Bool) (url : Str),
        handleUpgrade (stripAliases routes) health url = handleUpgrade routes health url) := by
  constructor
  · intro routes health url h
    unfold handleRequest handleUpgrade
    rw [h]
    cases hm : matchedRoute routes url with
    | none => rfl
    | some r =>
        by_cases hh : health r.name = true
        · simp [hh, wsView]
        · simp [Bool.not_eq_true] at hh
          simp [hh, wsView, statusLine]
  · intro routes health url
    unfold handleUpgrade
    rw [matchedRoute_stripAliases]
    cases hm : matchedRoute routes url with
    | none => rfl
    | some r => rfl

theorem c7_witness :
    wsView (handleRequest [apiRoute, fallbackRoute] (fun _ => true)
        ("/api/users".toList)) =
      handleUpgrade [apiRoute, fallbackRoute] (fun _ => true) ("/api/users".toList) ∧
    handleUpgrade (stripAliases [adminRoute, fallbackRoute]) (fun _ => true)
        ("/adm/users".toList) =
      handleUpgrade [adminRoute, fallbackRoute] (fun _ => true) ("/adm/users".toList) :=
  ⟨c7_upgrade_state_machine.1 [apiRoute, fallbackRoute] (fun _ => true)
      ("/api/users".toList) rfl,
   c7_upgrade_state_machine.2 [adminRoute, fallbackRoute] (fun _ => true)
      ("/adm/users".toList)⟩

/-! ### Retry engine lemmas -/

theorem checkTargetAvailable_false_budget (m r : Nat) :
    ∀ (as : List Attempt) (t tEnd : Nat) (rest : List Attempt),
      checkTargetAvailable m r as t = some (false, tEnd, rest) → m ≤ tEnd := by
  intro as
  induction as with
  | nil =>
      intro t tEnd rest h
      simp only [checkTargetAvailable] at h
      split_ifs at h with hm
      · rw [Option.some.injEq, Prod.mk.injEq, Prod.mk.injEq] at h
        obtain ⟨-, h2, -⟩ := h
        omega
  | cons a as ih =>
      intro t tEnd rest h
      simp only [checkTargetAvailable] at h
      split_ifs at h with hm hok hbud
      · rw [Option.some.injEq, Prod.mk.injEq, Prod.mk.injEq] at h
        obtain ⟨-, h2, -⟩ := h
        omega
      · exact absurd h (by simp)
      · rw [Option.some.injEq, Prod.mk.injEq, Prod.mk.injEq] at h
        obtain ⟨-, h2, -⟩ := h
        omega
      · exact ih _ _ _ h

theorem checkTargetAvailable_false_overshoot (m r D : Nat) :
    ∀ (as : List Attempt) (t tEnd : Nat) (rest : List Attempt),
      (∀ a ∈ as, a.dur ≤ D) → t < m + r →
      checkTargetAvailable m r as t = some (false, tEnd, rest) →
      tEnd < m + max r D := by
  intro as
  induction as with
  | nil =>
      intro t tEnd rest _ ht h
      simp only [checkTargetAvailable] at h
      split_ifs at h with hm
      · rw [Option.some.injEq, Prod.mk.injEq, Prod.mk.injEq] at h
        obtain ⟨-, h2, -⟩ := h
        have := Nat.le_max_left r D
        omega
  | cons a as ih =>
      intro t tEnd rest hd ht h
      simp only [checkTargetAvailable] at h
      split_ifs at h with hm hok hbud
      · rw [Option.some.injEq, Prod.mk.injEq, Prod.mk.injEq] at h
        obtain ⟨-, h2, -⟩ := h
        have := Nat.le_max_left r D
        omega
      · exact absurd h (by simp)
      · rw [Option.some.injEq, Prod.mk.injEq, Prod.mk.injEq] at h
        obtain ⟨-, h2, -⟩ := h
        have hda : a.dur ≤ D := hd a (List.mem_cons_self _ _)
        have := Nat.le_max_right r D
        omega
      · exact ih _ _ _ (fun b hb => hd b (List.mem_cons_of_mem _ hb)) (by omega) h

theorem checkTargetAvailable_false_consumed (m r : Nat) :
    ∀ (as : List Attempt) (t tEnd : Nat) (rest : List Attempt),
      checkTargetAvailable m r as t = some (false, tEnd, rest) →
      ∃ consumed, as = consumed ++ rest ∧ ∀ a ∈ consumed, a.ok = false := by
  intro as
  induction as with
  | nil =>
      intro t tEnd rest h
      simp only [checkTargetAvailable] at h
      split_ifs at h with hm
      · rw [Option.some.injEq, Prod.mk.injEq, Prod.mk.injEq] at h
        obtain ⟨-, -, h3⟩ := h
        exact ⟨[], by simp [h3], by simp⟩
  | cons a as ih =>
      intro t tEnd rest h
      simp only [checkTargetAvailable] at h
      split_ifs at h with hm hok hbud
      · rw [Option.some.injEq, Prod.mk.injEq, Prod.mk.injEq] at h
        obtain ⟨-, -, h3⟩ := h
        exact ⟨[], by simp [h3], by simp⟩
      · exact absurd h (by simp)
      · rw [Option.some.injEq, Prod.mk.injEq, Prod.mk.injEq] at h
        obtain ⟨-, -, h3⟩ := h
        refine ⟨[a], by simp [h3], ?_⟩
        intro b hb
        rw [List.mem_singleton.mp hb]
        exact Bool.not_eq_true _ |>.mp hok
      · obtain ⟨c, hc, hfail⟩ := ih _ _ _ h
        refine ⟨a :: c, by simp [hc], ?_⟩
        intro b hb
        rcases List.mem_cons.mp hb with rfl | hb'
        · exact Bool.not_eq_true _ |>.mp hok
        · exact hfail b hb'

theorem checkTargetAvailable_true_success (m r : Nat) :
    ∀ (as : List Attempt) (t tEnd : Nat) (rest : List Attempt),
      checkTargetAvailable m r as t = some (true, tEnd, rest) →
      ∃ consumed a, as = consumed ++ a :: rest ∧ a.ok = true ∧
        ∀ b ∈ consumed, b.ok = false := by
  intro as
  induction as with
  | nil =>
      intro t tEnd rest h
      simp only [checkTargetAvailable] at h
      split_ifs at h with hm
      exact absurd h (by simp)
  | cons a as ih =>
      intro t tEnd rest h
      simp only [checkTargetAvailable] at h
      split_ifs at h with hm hok hbud
      · exact absurd h (by simp)
      · rw [Option.some.injEq, Prod.mk.injEq, Prod.mk.injEq] at h
        obtain ⟨-, -, h3⟩ := h
        exact ⟨[], a, by simp [h3], hok, by simp⟩
      · exact absurd h (by simp)
      · obtain ⟨c, b, hc, hbok, hfail⟩ := ih _ _ _ h
        refine ⟨a :: c, b, by simp [hc], hbok, ?_⟩
        intro x hx
        rcases List.mem_cons.mp hx with rfl | hx'
        · exact Bool.not_eq_true _ |>.mp hok
        · exact hfail x hx'

/-- A physically realizable probe schedule with `maxRetryMs = 1000` and
`retryIntervalMs = 50`: one failed attempt lasting 99 ms, seventeen
instant failures, and a final attempt that starts at elapsed 999 ms and
spends its full 100 ms connect timeout before failing. -/
def slowProbeTrace : List Attempt :=
  ⟨false, 99⟩ :: (List.replicate 17 ⟨false, 0⟩ ++ [⟨false, 100⟩])

/-- C3 counterexample: `checkTargetAvailable` with budget 1000 ms and retry
interval 50 ms can resolve `false` at elapsed 1099 ms, more than one
`retryIntervalMs` past the budget boundary, because the last attempt
(admitted while elapsed was 999 < 1000) ran for its 100 ms connect
timeout. -/
theorem c3_counterexample :
    checkTargetAvailable 1000 50 slowProbeTrace 0 = some (false, 1099, []) ∧
    1000 + 50 < 1099 := by decide

/-- C3 (amended): `checkTargetAvailable` resolves `false` only when the
elapsed time has reached at least `maxRetryMs` (never before the budget is
spent); when every attempt's duration is bounded by `D`, a `false`
resolution occurs within `max retryIntervalMs D` of the budget boundary —
in particular within one `retryIntervalMs` when every failed attempt
completes within `retryIntervalMs`, as with an immediately refusing
backend; a `false` resolution consumes only failed attempts (so any
execution in which a made attempt succeeds resolves `true`); and a `true`
resolution is produced exactly by the first successful attempt made. -/
theorem c3_retry_budget_exhaustion :
    (∀ (m r : Nat) (as : List Attempt) (t tEnd : Nat) (rest : List Attempt),
        checkTargetAvailable m r as t = some (false, tEnd, rest) → m ≤ tEnd) ∧
    (∀ (m r D : Nat) (as : List Attempt) (tEnd : Nat) (rest : List Attempt),
        0 < m → (∀ a ∈ as, a.dur ≤ D) →
        checkTargetAvailable m r as 0 = some (false, tEnd, rest) →
        tEnd < m + max r D) ∧
    (∀ (m r : Nat) (as : List Attempt) (t tEnd : Nat) (rest : List Attempt),
        checkTargetAvailable m r as t = some (false, tEnd, rest) →
        ∃ consumed, as = consumed ++ rest ∧ ∀ a ∈ consumed, a.ok = false) ∧
    (∀ (m r : Nat) (as : List Attempt) (t tEnd : Nat) (rest : List Attempt),
        checkTargetAvailable m r as t = some (true, tEnd, rest) →
        ∃ consumed a, as = consumed ++ a :: rest ∧ a.ok = true ∧
          ∀ b ∈ consumed, b.ok = false) :=
  ⟨fun m r => checkTargetAvailable_false_budget m r,
   fun m r D as tEnd rest hm hd h =>
     checkTargetAvailable_false_overshoot m r D as 0 tEnd rest hd (by omega) h,
   fun m r => checkTargetAvailable_false_consumed m r,
   fun m r => checkTargetAvailable_true_success m r⟩

theorem c3_witness :
    ((1000 : Nat) ≤ 1000 ∧ 1000 < 1000 + max 50 0) ∧
    checkTargetAvailable 1000 50 (List.replicate 20 ⟨false, 0⟩) 0 =
      some (false, 1000, []) ∧
    checkTargetAvailable 1000 50 [⟨true, 5⟩] 0 = some (true, 5, []) :=
  ⟨⟨c3_retry_budget_exhaustion.1 1000 50 (List.replicate 20 ⟨false, 0⟩) 0 1000 []
      (by decide),
    c3_retry_budget_exhaustion.2.1 1000 50 0 (List.replicate 20 ⟨false, 0⟩) 1000 []
      (by decide) (by decide) (by decide)⟩,
   by decide, by decide⟩

/-! ### Route Table construction lemmas -/

theorem collectNamedRoutes_ok_iff :
    ∀ mt : List TargetEntry,
      (∃ named, collectNamedRoutes mt = .ok named) ↔
        ∀ t ∈ mt, ∀ a ∈ t.aliases, badAlias a = false := by
  intro mt
  induction mt with
  | nil => simp [collectNamedRoutes]
  | cons t ts ih =>
      constructor
      · rintro ⟨named, hn⟩
        unfold collectNamedRoutes at hn
        cases hf : t.aliases.find? badAlias with
        | some a => rw [hf] at hn; exact absurd hn (by simp)
        | none =>
            rw [hf] at hn
            cases hc : collectNamedRoutes ts with
            | error e => rw [hc] at hn; exact absurd hn (by simp)
            | ok rest =>
                intro x hx
                rcases List.mem_cons.mp hx with rfl | hx'
                · intro a ha
                  have := List.find?_eq_none.mp hf a ha
                  exact Bool.not_eq_true _ |>.mp this
                · exact ih.mp ⟨rest, hc⟩ x hx'
      · intro hall
        have hf : t.aliases.find? badAlias = none :=
          List.find?_eq_none.mpr fun a ha => by
            rw [hall t (List.mem_cons_self _ _) a ha]; simp
        obtain ⟨rest, hc⟩ := ih.mpr fun x hx => hall x (List.mem_cons_of_mem _ hx)
        refine ⟨⟨t.name, t.path, t.port, t.aliases⟩ :: rest, ?_⟩
        unfold collectNamedRoutes
        rw [hf, hc]

theorem collectNamedRoutes_nil_iff :
    ∀ (mt : List TargetEntry) (named : List RouteConfig),
      collectNamedRoutes mt = .ok named → (named = [] ↔ mt = []) := by
  intro mt named h
  cases mt with
  | nil =>
      unfold collectNamedRoutes at h
      injection h with h1
      subst h1
      simp
  | cons t ts =>
      unfold collectNamedRoutes at h
      cases hf : t.aliases.find? badAlias with
      | some a => rw [hf] at h; exact absurd h (by simp)
      | none =>
          rw [hf] at h
          cases hc : collectNamedRoutes ts with
          | error e => rw [hc] at h; exact absurd h (by simp)
          | ok rest =>
              rw [hc] at h
              injection h with h1
              subst h1
              simp

/-- Two `/` routes from the named-targets map: accepted, violating the
at-most-one-fallback invariant. -/
def dupSlashTargets : List TargetEntry :=
  [⟨"a".toList, "/".toList, 3000, []⟩, ⟨"b".toList, "/".toList, 4000, []⟩]

/-- Two routes defining the same alias `/z`: accepted, violating alias
distinctness. -/
def dupAliasTargets : List TargetEntry :=
  [⟨"a".toList, "/x".toList, 3000, ["/z".toList]⟩,
   ⟨"b".toList, "/y".toList, 4000, ["/z".toList]⟩]

/-- C8 counterexample: route-table construction accepts a configuration
with two routes whose path is `/`, and a configuration in which two routes
declare the same alias `/z` — neither is rejected with a configuration
error. -/
theorem c8_counterexample :
    buildRouteConfigs dupSlashTargets none =
      .ok [⟨"a".toList, "/".toList, 3000, []⟩, ⟨"b".toList, "/".toList, 4000, []⟩] ∧
    buildRouteConfigs dupAliasTargets none =
      .ok [⟨"a".toList, "/x".toList, 3000, ["/z".toList]⟩,
           ⟨"b".toList, "/y".toList, 4000, ["/z".toList]⟩] :=
  ⟨rfl, rfl⟩

theorem buildRouteConfigs_error_eq (mt : List TargetEntry) (st : Option Nat) (e : Str)
    (hc : collectNamedRoutes mt = .error e) : buildRouteConfigs mt st = .error e := by
  unfold buildRouteConfigs
  rw [hc]

theorem buildRouteConfigs_ok_eq (mt : List TargetEntry) (st : Option Nat)
    (named : List RouteConfig) (hc : collectNamedRoutes mt = .ok named) :
    buildRouteConfigs mt st =
      if (named ++ fallbackRoutes st).isEmpty then .error noTargetErr
      else .ok (sortRoutes (named ++ fallbackRoutes st)) := by
  unfold buildRouteConfigs
  rw [hc]

/-- C8 (amended): construction validates only that no alias ends with a
trailing slash (other than the alias `/` itself) and that the route table
is non-empty; a configuration passes exactly when these two conditions
hold, so tables with several `/` routes or duplicated alias strings are
accepted and produce a running instance. -/
theorem c8_construction_validation (mt : List TargetEntry) (st : Option Nat) :
    (∃ rcs, buildRouteConfigs mt st = .ok rcs) ↔
      ((∀ t ∈ mt, ∀ a ∈ t.aliases, badAlias a = false) ∧ ¬(mt = [] ∧ st = none)) := by
  cases hc : collectNamedRoutes mt with
  | error e =>
      rw [buildRouteConfigs_error_eq mt st e hc]
      constructor
      · rintro ⟨rcs, h⟩
        exact absurd h (by simp)
      · rintro ⟨hall, -⟩
        obtain ⟨named, hn⟩ := (collectNamedRoutes_ok_iff mt).mpr hall
        rw [hc] at hn
        exact absurd hn (by simp)
  | ok named =>
      rw [buildRouteConfigs_ok_eq mt st named hc]
      have hnil := collectNamedRoutes_nil_iff mt named hc
      have hall := (collectNamedRoutes_ok_iff mt).mp ⟨named, hc⟩
      cases st with
      | some p =>
          have hne : ((named ++ fallbackRoutes (some p)).isEmpty) = false := by
            simp [fallbackRoutes]
          rw [if_neg (by simp [hne])]
          constructor
          · intro _
            exact ⟨hall, by simp⟩
          · intro _
            exact ⟨_, rfl⟩
      | none =>
          cases hn : named with
          | nil =>
              rw [if_pos (by simp [hn, fallbackRoutes])]
              constructor
              · rintro ⟨rcs, h⟩
                exact absurd h (by simp)
              · rintro ⟨-, hne⟩
                exact absurd ⟨hnil.mp hn, rfl⟩ hne
          | cons x xs =>
              rw [if_neg (by simp [hn, fallbackRoutes])]
              constructor
              · intro _
                refine ⟨hall, ?_⟩
                rintro ⟨hmt, -⟩
                rw [hnil.mpr hmt] at hn
                exact absurd hn (by simp)
              · intro _
                exact ⟨_, rfl⟩

theorem c8_witness :
    ∃ rcs, buildRouteConfigs [⟨"api".toList, "/api".toList, 3000, []⟩] none = .ok rcs :=
  (c8_construction_validation [⟨"api".toList, "/api".toList, 3000, []⟩] none).mpr
    ⟨by decide, by decide⟩

/-- C9: falsy configuration values fall back to defaults. A falsy
configured value (`0`, the empty string, `false`) makes `get` behave
exactly as if the key were absent; consequently, with no `defaults`
section, a falsy `maxRetryMs` yields the default 1000, a falsy
`retryIntervalMs` yields the default 50, and a falsy `source` yields the
computed default of the first sorted route's port plus 1000. -/
theorem c9_falsy_config_defaults :
    (∀ (pc : List (Str × JVal)) (ds : Option (List (Str × JVal))) (k : Str) (cd : Bool),
        truthy (lookupJ pc k) = false →
        getConfigValue pc ds k cd = getConfigValue [] ds k cd) ∧
    (∀ pc : List (Str × JVal), truthy (lookupJ pc ("maxRetryMs".toList)) = false →
        maxRetryMsOf pc none = .num 1000) ∧
    (∀ pc : List (Str × JVal), truthy (lookupJ pc ("retryIntervalMs".toList)) = false →
        retryIntervalMsOf pc none = .num 50) ∧
    (∀ (pc : List (Str × JVal)) (ds : Option (List (Str × JVal))) (firstRoutePort : Int),
        truthy (lookupJ pc ("source".toList)) = false →
        sourceOf pc ds firstRoutePort = .num (firstRoutePort + 1000)) := by
  have hbase : ∀ (pc : List (Str × JVal)) (ds : Option (List (Str × JVal)))
      (k : Str) (cd : Bool), truthy (lookupJ pc k) = false →
      getConfigValue pc ds k cd = getConfigValue [] ds k cd := by
    intro pc ds k cd h
    unfold getConfigValue
    rw [if_neg (show ¬(truthy (lookupJ pc k) = true) by simp [h])]
    rw [if_neg (show ¬(truthy (lookupJ [] k) = true) by simp [lookupJ, truthy])]
  refine ⟨hbase, ?_, ?_, ?_⟩
  · intro pc h
    unfold maxRetryMsOf
    rw [hbase pc none _ true h]
    rfl
  · intro pc h
    unfold retryIntervalMsOf
    rw [hbase pc none _ true h]
    rfl
  · intro pc ds firstRoutePort h
    unfold sourceOf
    unfold getConfigValue
    rw [if_neg (show ¬(truthy (lookupJ pc ("source".toList)) = true) by rw [h]; simp)]
    rfl

theorem c9_witness :
    maxRetryMsOf [("maxRetryMs".toList, JVal.num 0)] none = .num 1000 ∧
    retryIntervalMsOf [("retryIntervalMs".toList, JVal.num 0)] none = .num 50 ∧
    sourceOf [("source".toList, JVal.num 0)] none 3000 = .num (3000 + 1000) :=
  ⟨c9_falsy_config_defaults.2.1 [("maxRetryMs".toList, JVal.num 0)] (by decide),
   c9_falsy_config_defaults.2.2.1 [("retryIntervalMs".toList, JVal.num 0)] (by decide),
   c9_falsy_config_defaults.2.2.2 [("source".toList, JVal.num 0)] none 3000 (by decide)⟩

/-- C10: an alias on the fallback route produces a double-slash redirect.
For a route whose path is exactly `/` with an alias `a` different from
`/`, a request `a ++ "/" ++ rest` matches the alias, the main path stays
`/` (no trailing-slash strip), and replacing the alias prefix yields the
301 Location `"//" ++ rest`. -/
theorem c10_fallback_alias_double_slash (a rest : Str) (port : Nat)
    (health : Str → Bool) (hne : a ≠ ['/']) :
    mainPathOf ['/'] = ['/'] ∧
    matchesAlias (a ++ '/' :: rest) a = true ∧
    replaceFirst a (mainPathOf ['/']) (a ++ '/' :: rest) = '/' :: '/' :: rest ∧
    handleRequest [⟨"default".toList, ['/'], port, [a]⟩] health (a ++ '/' :: rest) =
      .respond ⟨301, true, some ('/' :: '/' :: rest), movedBody a ['/']⟩ := by
  have hpre : a.isPrefixOf (a ++ '/' :: rest) = true := by
    rw [List.isPrefixOf_iff_prefix]
    exact List.prefix_append a ('/' :: rest)
  have hpre2 : (a ++ ['/']).isPrefixOf (a ++ '/' :: rest) = true := by
    rw [List.isPrefixOf_iff_prefix]
    exact ⟨rest, by simp⟩
  have hmain : mainPathOf ['/'] = ['/'] := by
    unfold mainPathOf
    rw [if_neg (by simp)]
  have hmatch : matchesAlias (a ++ '/' :: rest) a = true := by
    unfold matchesAlias
    rw [hpre2]
    simp
  have hrepl : replaceFirst a (mainPathOf ['/']) (a ++ '/' :: rest) = '/' :: '/' :: rest := by
    rw [replaceFirst_of_isPrefixOf a (mainPathOf ['/']) _ hpre, hmain]
    have : (a ++ '/' :: rest).drop a.length = '/' :: rest := List.drop_left a ('/' :: rest)
    rw [this]
    rfl
  refine ⟨hmain, hmatch, hrepl, ?_⟩
  have hfa : findAlias [⟨"default".toList, ['/'], port, [a]⟩] (a ++ '/' :: rest) =
      some (a, ⟨"default".toList, ['/'], port, [a]⟩) := by
    unfold findAlias
    rw [List.findSome?_cons]
    rw [show (⟨"default".toList, ['/'], port, [a]⟩ : RouteConfig).aliases.find?
          (matchesAlias (a ++ '/' :: rest)) = some a from
        List.find?_cons_of_pos _ hmatch]
    rfl
  unfold handleRequest
  simp only [hfa]
  rw [hrepl]

theorem c10_witness :
    mainPathOf ['/'] = ['/'] ∧
    matchesAlias ("/adm".toList ++ '/' :: ("users".toList)) ("/adm".toList) = true ∧
    replaceFirst ("/adm".toList) (mainPathOf ['/'])
        ("/adm".toList ++ '/' :: ("users".toList)) = '/' :: '/' :: ("users".toList) ∧
    handleRequest [⟨"default".toList, ['/'], 5173, ["/adm".toList]⟩] (fun _ => true)
        ("/adm".toList ++ '/' :: ("users".toList)) =
      .respond ⟨301, true, some ('/' :: '/' :: ("users".toList)),
                movedBody ("/adm".toList) ['/']⟩ :=
  c10_fallback_alias_double_slash ("/adm".toList) ("users".toList) 5173 (fun _ => true)
    (by decide)
